import Mathlib

/-!
Shallow embedding of the ai-mate voice-assistant pipeline
(`src/conversation.rs`, `src/record.rs`, `src/playback.rs`, `src/audio.rs`,
`src/tts.rs`, `src/keyboard.rs`) and proofs about it.

Text is modelled as `List Char` (a Rust `&str` viewed as its character
sequence), audio samples as `ℚ` (exact stand-in for `f32`/`f64` sample
arithmetic), millisecond timestamps and u64 counters as `Nat`.
-/

namespace AiMate

-- ------------------------------------------------------------------
-- Text helpers (Rust `str::trim`, `str::ends_with(char)`)
-- ------------------------------------------------------------------

/-- Rust `str::trim`: drop whitespace from both ends. -/
def trimList (l : List Char) : List Char :=
  ((l.dropWhile Char.isWhitespace).reverse.dropWhile Char.isWhitespace).reverse

/-- Rust `str::ends_with(c)`: the last character is `c`. -/
def endsWithChar (l : List Char) (c : Char) : Bool :=
  l.getLast? == some c

-- ------------------------------------------------------------------
-- Phrase segmenter (`conversation.rs`, `PhraseSpeaker`)
-- ------------------------------------------------------------------

/-- `conversation.rs` `PhraseSpeaker`: accumulator buffer for LLM tokens. -/
structure PhraseSpeaker where
  buf : List Char
deriving DecidableEq, Repr

/-- `PhraseSpeaker::flush` (conversation.rs:310-314): trim the buffer,
clear it, and yield the trimmed text unless it is empty. -/
def PhraseSpeaker.flush (sp : PhraseSpeaker) : Option (List Char) × PhraseSpeaker :=
  let out := trimList sp.buf
  (if out.isEmpty then none else some out, ⟨[]⟩)

/-- `PhraseSpeaker::push_text` (conversation.rs:303-309): append the token;
emit via `flush` exactly when the buffer contains a newline or ends with
a dot. -/
def PhraseSpeaker.push_text (sp : PhraseSpeaker) (s : List Char) :
    Option (List Char) × PhraseSpeaker :=
  let buf := sp.buf ++ s
  let trigger := buf.contains '\n' || endsWithChar buf '.'
  if trigger then PhraseSpeaker.flush ⟨buf⟩ else (none, ⟨buf⟩)

/-- Modelled from the spec (§4.5): the spec's richer phrase trigger —
newline in buffer, or buffer ends with `.`/`!`/`?`, or length ≥ 140.
Used only to compare the spec's wording with the code's trigger. -/
def specPhraseTrigger (buf : List Char) : Bool :=
  buf.contains '\n' || endsWithChar buf '.' || endsWithChar buf '!' ||
    endsWithChar buf '?' || decide (140 ≤ buf.length)

-- ------------------------------------------------------------------
-- Special-character stripping (`conversation.rs`, `strip_special_chars`)
-- ------------------------------------------------------------------

/-- The backtick character (written via its code to keep source plain). -/
def tick : Char := '\x60'

/-- The triple-backtick code fence `strip_special_chars` splits on. -/
def fence : List Char := [tick, tick, tick]

/-- The punctuation removed outside code fences (conversation.rs:327-332). -/
def specials : List Char :=
  ['.', '~', '*', '&', '-', ',', ';', ':', '(', ')', '[', ']',
   '\x7b', '\x7d', '\x22', '\x27']

/-- A character survives the filter iff it is not in `specials`. -/
def keepChar (c : Char) : Bool := !(specials.contains c)

/-- Prepend a character to the first part of a split result. -/
def consHead (c : Char) : List (List Char) → List (List Char)
  | [] => [[c]]
  | p :: ps => (c :: p) :: ps

/-- Rust `str::split("```")`: split at each leftmost non-overlapping
occurrence of the fence, keeping (possibly empty) parts. -/
def splitFence : List Char → List (List Char)
  | t1 :: t2 :: t3 :: rest =>
    if t1 = tick ∧ t2 = tick ∧ t3 = tick then
      [] :: splitFence rest
    else
      consHead t1 (splitFence (t2 :: t3 :: rest))
  | [x, y] => [[x, y]]
  | [x] => [[x]]
  | [] => [[]]

/-- The fold of `strip_special_chars` over the parts produced by the split
(conversation.rs:325-338): outside a fence, parts are filtered through
`keepChar`; inside, the part is skipped; the in-fence flag toggles after
every part except the last. -/
def stripParts : Bool → List (List Char) → List Char × Bool
  | inside, [] => ([], inside)
  | inside, [p] => ((if inside then [] else p.filter keepChar), inside)
  | inside, p :: ps =>
    let head := if inside then [] else p.filter keepChar
    let r := stripParts (!inside) ps
    (head ++ r.1, r.2)

/-- `conversation.rs` `strip_special_chars` (lines 321-341), with the
thread-local `IN_CODE_BLOCK` cell made an explicit input/output. -/
def strip_special_chars (inside : Bool) (s : List Char) : List Char × Bool :=
  stripParts inside (splitFence s)

-- ------------------------------------------------------------------
-- Turn orchestrator: stale-utterance check and token-callback
-- interruption handling (`conversation.rs`, `conversation_thread`)
-- ------------------------------------------------------------------

/-- Outcome of the post-transcription epoch check. -/
structure StaleCheckResult where
  skip : Bool
  stopSignals : Nat
  history : List Char
deriving DecidableEq, Repr

/-- conversation.rs:101-107: snapshot `my_interrupt`, re-load the counter;
on mismatch send one stop-playback signal, clear the conversation history
and skip the turn. -/
def staleCheck (myEpoch currentEpoch : Nat) (history : List Char) :
    StaleCheckResult :=
  if currentEpoch ≠ myEpoch then
    { skip := true, stopSignals := 1, history := [] }
  else
    { skip := false, stopSignals := 0, history := history }

/-- State visible to the `on_piece` token callback. -/
structure OnPieceState where
  interrupted : Bool
  speaker : PhraseSpeaker
  history : List Char
deriving DecidableEq, Repr

/-- conversation.rs:149-153: inside the token callback, an epoch mismatch
flags the turn interrupted and clears the phrase buffer — the conversation
history is left untouched. -/
def onPieceEpochCheck (myEpoch currentEpoch : Nat) (st : OnPieceState) :
    OnPieceState :=
  if currentEpoch ≠ myEpoch then
    { st with interrupted := true, speaker := ⟨[]⟩ }
  else st

-- ------------------------------------------------------------------
-- Audio data model (`audio.rs`)
-- ------------------------------------------------------------------

/-- `audio.rs` `AudioChunk`: interleaved samples, channel count, rate. -/
structure AudioChunk where
  data : List ℚ
  channels : Nat
  sampleRate : Nat
deriving DecidableEq, Repr

-- ------------------------------------------------------------------
-- Channel conversion (`playback.rs`, `convert_channels`)
-- ------------------------------------------------------------------

/-- One iteration of the frame loop of `convert_channels`
(playback.rs:23-46): mono is duplicated into every output channel,
many-to-one takes the mean, otherwise copy `min` channels and zero-pad. -/
def convertFrame (inCh outCh : Nat) (frame : List ℚ) : List ℚ :=
  if inCh = 1 then
    List.replicate outCh (frame.headD 0)
  else if outCh = 1 then
    [frame.sum / (inCh : ℚ)]
  else
    frame.take (min inCh outCh) ++ List.replicate (outCh - min inCh outCh) 0

/-- The frame loop `for f in 0..frames` of `convert_channels`: consume the
input `inCh` samples at a time, dropping a trailing partial frame
(`frames = input.len() / in_ch` truncates). -/
def convertFrames (inCh outCh : Nat) (xs : List ℚ) : List ℚ :=
  if _h : 1 ≤ inCh ∧ inCh ≤ xs.length then
    convertFrame inCh outCh (xs.take inCh) ++ convertFrames inCh outCh (xs.drop inCh)
  else []
termination_by xs.length
decreasing_by
  simp only [List.length_drop]
  omega

/-- `playback.rs` `convert_channels` (lines 15-48). Equal channel counts
pass the input through unchanged. (`in_ch = 0` would panic in Rust on the
`len / in_ch` division; here the loop simply produces nothing.) -/
def convert_channels (input : List ℚ) (inCh outCh : Nat) : List ℚ :=
  if inCh = outCh then input else convertFrames inCh outCh input

-- ------------------------------------------------------------------
-- Resampling (`audio.rs`)
-- ------------------------------------------------------------------

/-- `audio.rs` `resample_linear` (lines 97-114): mono linear-interpolation
resampling, with the `f64` position arithmetic carried out exactly in ℚ. -/
def resample_linear (input : List ℚ) (inSr outSr : Nat) : List ℚ :=
  if inSr = outSr ∨ input = [] then input else
  let ratio : ℚ := (outSr : ℚ) / (inSr : ℚ)
  let outLen : Nat := (round ((input.length : ℚ) * ratio)).toNat
  (List.range outLen).map (fun i =>
    let srcPos : ℚ := (i : ℚ) / ratio
    let idx : Nat := (⌊srcPos⌋).toNat
    let frac : ℚ := srcPos - (idx : ℚ)
    let a := input.getD idx 0
    let b := input.getD (idx + 1) a
    a + (b - a) * frac)

/-- `audio.rs` `resample_interleaved_linear` (lines 57-94): de-interleave,
resample each channel, re-interleave (`out_frames` comes from channel 0). -/
def resample_interleaved_linear (input : List ℚ) (channels inSr outSr : Nat) :
    List ℚ :=
  if inSr = outSr ∨ input = [] then input else
  let ch := channels
  let frames := input.length / ch
  let perCh := (List.range ch).map (fun c =>
    (List.range frames).map (fun f => input.getD (f * ch + c) 0))
  let perChRs := perCh.map (fun l => resample_linear l inSr outSr)
  let outFrames := (perChRs.headD []).length
  (List.range outFrames).flatMap (fun f =>
    (List.range ch).map (fun c => (perChRs.getD c []).getD f 0))

/-- `audio.rs` `resample_to` (lines 116-128). -/
def resample_to (input : List ℚ) (channels inSr outSr : Nat) : List ℚ :=
  if inSr = outSr ∨ input = [] then input
  else if channels = 1 then resample_linear input inSr outSr
  else resample_interleaved_linear input channels inSr outSr

-- ------------------------------------------------------------------
-- Playback control loop, `rx_audio` branch (`playback.rs`, `tts.rs`)
-- ------------------------------------------------------------------

/-- `tts.rs:27`: playback queue capacity in frames at the output rate. -/
def QUEUE_CAP_FRAMES : Nat := 48000 * 15

/-- playback.rs:319: `max_samples = QUEUE_CAP_FRAMES * channels`. -/
def maxSamples (channels : Nat) : Nat := QUEUE_CAP_FRAMES * channels

/-- playback.rs:336-352: what the `rx_audio` branch pushes for a chunk —
convert channels if they differ from the device's, then resample if the
chunk's rate differs from the device rate. -/
def processChunk (chunk : AudioChunk) (outChannels outRate : Nat) : List ℚ :=
  let data :=
    if chunk.channels ≠ outChannels then
      convert_channels chunk.data chunk.channels outChannels
    else chunk.data
  if chunk.sampleRate ≠ outRate then
    resample_to data outChannels chunk.sampleRate outRate
  else data

/-- playback.rs:331-352: the queue after the `rx_audio` branch pushes a
chunk. The branch only runs once the backpressure wait
(playback.rs:322-330) has observed `queue.len + chunk.data.len ≤
max_samples`; that guard is stated as a hypothesis of the theorems. -/
def rxAudioPush (queue : List ℚ) (chunk : AudioChunk) (outChannels outRate : Nat) :
    List ℚ :=
  queue ++ processChunk chunk outChannels outRate

/-- playback.rs:322-330: the backpressure wait condition the producer
blocks on before pushing (checked against the chunk's raw sample count). -/
def backpressureRoom (queueLen chunkLen channels : Nat) : Prop :=
  queueLen + chunkLen ≤ maxSamples channels

-- ------------------------------------------------------------------
-- Playback device callback, f32 output (`playback.rs`, lines 95-146)
-- ------------------------------------------------------------------

/-- Shared state touched by the f32 output callback. -/
structure OutCbState where
  queue : List ℚ
  playbackActive : Bool
  playing : Bool
  emptyCallbacks : Nat
  gateUntilMs : Nat
deriving DecidableEq, Repr

/-- Result of one callback invocation: the new shared state and the
contents of the device output buffer when the callback returns. -/
structure OutCbResult where
  st : OutCbState
  out : List ℚ
deriving DecidableEq, Repr

/-- playback.rs:95-146, the f32 device callback.  `out` is the contents of
the output buffer handed to the callback (the callback may return without
writing it).  With `vol == 0` (line 97) the queue is cleared, playing
flags drop, `gate_until` is extended and the callback returns — the
output buffer is not written.  When paused, silence is written without
consuming the queue.  Otherwise samples are popped and scaled by `vol`,
missing samples become 0, and after an all-empty callback the not-playing
flags are set (the `n >= 1` check of line 137 fires on the first one). -/
def outputCallbackF32 (vol : ℚ) (paused : Bool) (now hangoverMs : Nat)
    (st : OutCbState) (out : List ℚ) : OutCbResult :=
  if vol = 0 then
    { st :=
        { st with
          queue := []
          playbackActive := false
          playing := false
          gateUntilMs := now + hangoverMs },
      out := out }
  else if paused then
    { st :=
        if st.queue.isEmpty then st
        else
          { st with
            playbackActive := true
            playing := true
            emptyCallbacks := 0 },
      out := List.replicate out.length 0 }
  else
    let written := (List.range out.length).map (fun i =>
      if i < st.queue.length then st.queue.getD i 0 * vol else 0)
    let newQueue := st.queue.drop out.length
    let anyReal := 0 < out.length ∧ 0 < st.queue.length
    if anyReal then
      { st := { st with queue := newQueue, emptyCallbacks := 0 }, out := written }
    else
      let n := st.emptyCallbacks + 1
      if 1 ≤ n then
        { st :=
            { st with
              queue := newQueue
              emptyCallbacks := n
              playbackActive := false
              playing := false
              gateUntilMs := now + hangoverMs },
          out := written }
      else
        { st := { st with queue := newQueue, emptyCallbacks := n }, out := written }

-- ------------------------------------------------------------------
-- Capture callback (`record.rs`, `build_input_f32`, lines 180-277)
-- ------------------------------------------------------------------

/-- record.rs:541-550 `peak_abs`: maximum absolute sample value. -/
def peak_abs (xs : List ℚ) : ℚ :=
  xs.foldl (fun m v => if m < |v| then |v| else m) 0

/-- record.rs:239-240: utterance duration in ms,
`len * 1000 / max(sample_rate * channels, 1)` with truncating division. -/
def durMsOf (audioLen sampleRate channels : Nat) : Nat :=
  audioLen * 1000 / max (sampleRate * channels) 1

/-- record.rs:236-271 (silence branch): an utterance is committed iff the
buffer is non-empty and its duration reaches `min_utterance_ms`. -/
def utteranceEmitted (audioLen sampleRate channels minUttMs : Nat) : Bool :=
  if audioLen = 0 then false
  else decide (minUttMs ≤ durMsOf audioLen sampleRate channels)

/-- Tunables of the capture callback. -/
structure CapParams where
  vadThresh : ℚ
  endSilenceMs : Nat
  minUttMs : Nat
  hangoverMs : Nat
  sampleRate : Nat
  channels : Nat
deriving DecidableEq, Repr

/-- Shared state the capture callback reads and writes.  `epoch` is the
process-wide `interrupt_counter`; `playbackActive`, `vol` and
`gateUntilMs` are shared with the playback side. -/
structure CaptureState where
  userSpeaking : Bool
  stopSent : Bool
  uttBuf : List ℚ
  lastVoiceMs : Nat
  playbackActive : Bool
  gateUntilMs : Nat
  vol : ℚ
  epoch : Nat
deriving DecidableEq, Repr

/-- Result of one capture callback: new state, number of stop-playback
signals sent (`stop_play_tx.try_send`), and the utterance committed to
the conversation channel, if any. -/
structure CaptureOut where
  st : CaptureState
  stopSignals : Nat
  emitted : Option (List ℚ)
deriving DecidableEq, Repr

/-- record.rs:180-277, the f32 input callback for one buffer `data` at
time `now` (ms).  Voiced path (peak ≥ threshold): stamp `last_voice_ms`,
clear the buffer on a rising edge, append the samples; if playback is
active and the `stop_sent` latch is clear, send one stop signal,
increment the interrupt epoch, set the latch, extend the gate, zero the
volume, drop `playback_active` — and then reset the latch again
(record.rs:221 stores `false` right after line 212 stored `true`, so the
net `stopSent` is `false`).  Silence path while in speech: append the
samples; once `end_silence_ms` elapsed, leave speech, reset the latch and
commit the buffered utterance when it is long enough.  Idle path: reset
the latch. -/
def captureStep (p : CapParams) (st : CaptureState) (data : List ℚ) (now : Nat) :
    CaptureOut :=
  let localPeak := peak_abs data
  if p.vadThresh ≤ localPeak then
    let buf0 := if st.userSpeaking then st.uttBuf else []
    let buf := buf0 ++ data
    let st1 := { st with userSpeaking := true, uttBuf := buf, lastVoiceMs := now }
    if st.playbackActive ∧ st.stopSent = false then
      { st :=
          { st1 with
            stopSent := false
            gateUntilMs := now + p.hangoverMs
            vol := 0
            playbackActive := false
            epoch := st1.epoch + 1 },
        stopSignals := 1, emitted := none }
    else
      { st := st1, stopSignals := 0, emitted := none }
  else if st.userSpeaking then
    let buf := st.uttBuf ++ data
    if 0 < st.lastVoiceMs ∧ p.endSilenceMs ≤ now - st.lastVoiceMs then
      let st1 := { st with userSpeaking := false, stopSent := false, uttBuf := [] }
      if utteranceEmitted buf.length p.sampleRate p.channels p.minUttMs then
        { st := st1, stopSignals := 0, emitted := some buf }
      else
        { st := st1, stopSignals := 0, emitted := none }
    else
      { st := { st with uttBuf := buf }, stopSignals := 0, emitted := none }
  else
    { st := { st with stopSent := false }, stopSignals := 0, emitted := none }

/-- playback.rs:355: on a new audio chunk the playback control loop stores
`playback_active = true` (visible to the capture callback). -/
def playbackActivate (st : CaptureState) : CaptureState :=
  { st with playbackActive := true }

-- ------------------------------------------------------------------
-- Keyboard Esc handling (`keyboard.rs`, lines 64-85) and the
-- whole-system view of the interrupt epoch
-- ------------------------------------------------------------------

/-- keyboard.rs:64-85: one Esc key press at time `now` (ms).  A second Esc
within 1000 ms increments the interrupt epoch and resets the tracker. -/
def escStep (lastEsc : Option Nat) (now : Nat) (epoch : Nat) :
    Option Nat × Nat :=
  match lastEsc with
  | some prev => if now - prev ≤ 1000 then (none, epoch + 1) else (some now, epoch)
  | none => (some now, epoch)

/-- Events that touch the shared interrupt epoch or the flags feeding its
guards: a capture callback, an Esc key press, and the playback control
loop re-asserting `playback_active` on a new chunk. -/
inductive SysEvent where
  | mic (data : List ℚ) (now : Nat)
  | escKey (now : Nat)
  | playNewAudio
deriving DecidableEq, Repr

/-- Combined state: the capture-side shared state and the keyboard
thread's last-Esc tracker. -/
structure SysState where
  cap : CaptureState
  lastEsc : Option Nat
deriving DecidableEq, Repr

/-- One system step: dispatch the event to the embedding of the thread
that handles it. -/
def sysStep (p : CapParams) (st : SysState) (e : SysEvent) : SysState :=
  match e with
  | .mic data now => { st with cap := (captureStep p st.cap data now).st }
  | .escKey now =>
    let r := escStep st.lastEsc now st.cap.epoch
    { cap := { st.cap with epoch := r.2 }, lastEsc := r.1 }
  | .playNewAudio => { st with cap := playbackActivate st.cap }

-- ------------------------------------------------------------------
-- OpenTTS adapter entry (`tts.rs`, `speak_via_opentts_stream`)
-- ------------------------------------------------------------------

/-- `tts.rs` `SpeakOutcome` (lines 33-37). -/
inductive SpeakOutcome where
  | Completed
  | Interrupted
deriving DecidableEq, Repr

/-- Observable effects of a `speak_via_opentts_stream` call: how many HTTP
requests were issued, which chunks were sent to the playback sink, and
the reported outcome. -/
structure SpeakEffects where
  httpRequests : Nat
  sentChunks : List AudioChunk
  outcome : SpeakOutcome
deriving DecidableEq, Repr

/-- tts.rs:395-402: the URL built for the OpenTTS GET request (the
`urlencoding::encode` calls are the abstract `enc`). -/
def buildOpenttsUrl (base voice lang : String) (rate : Nat)
    (enc : String → String) (text : String) : String :=
  base ++ "&voice=" ++ enc voice ++ "&lang=" ++ enc lang ++
    "&sample_rate=" ++ toString rate ++ "&text=" ++ enc text

/-- tts.rs:380-414 `speak_via_opentts_stream`: empty text returns
`Completed` before any URL is built or any request made; otherwise the
HTTP streaming body runs (abstracted as `streamRun` on the built URL,
since its network behaviour is outside the pure fragment). -/
def speak_via_opentts_stream (text baseUrl language voice : String)
    (outRate : Nat) (enc : String → String)
    (streamRun : String → SpeakEffects) : SpeakEffects :=
  if text.isEmpty then
    { httpRequests := 0, sentChunks := [], outcome := SpeakOutcome.Completed }
  else
    streamRun (buildOpenttsUrl baseUrl voice language outRate enc text)

-- ------------------------------------------------------------------
-- Helper lemmas
-- ------------------------------------------------------------------

lemma splitFence_cons_ne (x : Char) (l : List Char) (hx : x ≠ tick) :
    splitFence (x :: l) = consHead x (splitFence l) := by
  match l with
  | [] => simp [splitFence, consHead]
  | [y] => simp [splitFence, consHead]
  | y :: z :: l' => simp [splitFence, hx]

lemma splitFence_no_tick (c : List Char) (hc : tick ∉ c) : splitFence c = [c] := by
  induction c with
  | nil => rfl
  | cons x c' ih =>
    have hx : x ≠ tick := fun h => hc (h ▸ List.mem_cons_self x c')
    have hc' : tick ∉ c' := fun h => hc (List.mem_cons_of_mem x h)
    rw [splitFence_cons_ne x c' hx, ih hc']
    rfl

lemma splitFence_append_fence (a r : List Char) (ha : tick ∉ a) :
    splitFence (a ++ (fence ++ r)) = a :: splitFence r := by
  induction a with
  | nil => simp [splitFence, fence]
  | cons x a' ih =>
    have hx : x ≠ tick := fun h => ha (h ▸ List.mem_cons_self x a')
    have ha' : tick ∉ a' := fun h => ha (List.mem_cons_of_mem x h)
    rw [List.cons_append, splitFence_cons_ne x (a' ++ (fence ++ r)) hx, ih ha']
    rfl

lemma convertFrames_one (n : Nat) (xs : List ℚ) :
    convertFrames 1 n xs = xs.flatMap (fun v => List.replicate n v) := by
  induction xs with
  | nil => rw [convertFrames]; simp
  | cons v rest ih =>
    rw [convertFrames]
    have h : 1 ≤ 1 ∧ 1 ≤ (v :: rest).length := by
      exact ⟨le_refl 1, by simp⟩
    rw [dif_pos h]
    simp [convertFrame, ih]

lemma convertFrames_mean (ic : Nat) (hic : 1 ≤ ic) (frame rest : List ℚ)
    (hlen : frame.length = ic) :
    convertFrames ic 1 (frame ++ rest) = frame.sum / (ic : ℚ) :: convertFrames ic 1 rest := by
  rw [convertFrames]
  have hguard : 1 ≤ ic ∧ ic ≤ (frame ++ rest).length := by
    constructor
    · exact hic
    · rw [List.length_append, hlen]; omega
  rw [dif_pos hguard]
  have htake : (frame ++ rest).take ic = frame := by
    rw [← hlen, List.take_left]
  have hdrop : (frame ++ rest).drop ic = rest := by
    rw [← hlen, List.drop_left]
  rw [htake, hdrop]
  by_cases h1 : ic = 1
  · subst h1
    match frame, hlen with
    | [v], _ => simp [convertFrame]
  · simp [convertFrame, h1]

lemma convertFrame_length (ic oc : Nat) (frame : List ℚ)
    (h : frame.length = ic) : (convertFrame ic oc frame).length = oc := by
  unfold convertFrame
  by_cases h1 : ic = 1
  · simp [h1]
  · by_cases h2 : oc = 1
    · simp [h1, h2]
    · simp only [h1, h2, if_false, List.length_append, List.length_take,
        List.length_replicate, h]
      omega

lemma convertFrames_length_dvd (ic oc : Nat) (xs : List ℚ) :
    oc ∣ (convertFrames ic oc xs).length := by
  induction xs using convertFrames.induct ic oc with
  | case1 xs h ih =>
    rw [convertFrames, dif_pos h, List.length_append]
    have hlen : (xs.take ic).length = ic := by
      rw [List.length_take]
      omega
    rw [convertFrame_length ic oc _ hlen]
    exact Nat.dvd_add (dvd_refl oc) ih
  | case2 xs h =>
    rw [convertFrames, dif_neg h]
    simp

-- ------------------------------------------------------------------
-- Claim theorems
-- ------------------------------------------------------------------

/-- C1 (counterexample): the claim says the segmenter emits exactly when
the buffer contains a newline, ends with `.`, `!` or `?`, or has length
≥ 140.  On the buffer `Hi!` the claimed trigger fires, yet `push_text`
emits nothing — the code's trigger is only newline-or-dot. -/
theorem C1_counterexample :
    specPhraseTrigger ['H', 'i', '!'] = true ∧
    (PhraseSpeaker.push_text ⟨[]⟩ ['H', 'i', '!']).1 = none := by
  decide

/-- C1 (amended): `push_text` emits a phrase exactly when the accumulated
buffer contains a newline or ends with `.` and the trimmed buffer is
non-empty (the emitted phrase is the trimmed buffer); when neither
trigger fires, `push_text` yields nothing, the text accumulates, and a
later `flush` returns the trimmed accumulated text (or nothing if it is
whitespace-only). -/
theorem C1_phrase_segmenter (sp : PhraseSpeaker) (s : List Char) :
    (PhraseSpeaker.push_text sp s).1 =
      (if ((sp.buf ++ s).contains '\n' || endsWithChar (sp.buf ++ s) '.')
          && !(trimList (sp.buf ++ s)).isEmpty
       then some (trimList (sp.buf ++ s)) else none)
    ∧ (((sp.buf ++ s).contains '\n' || endsWithChar (sp.buf ++ s) '.') = false →
        PhraseSpeaker.push_text sp s = (none, ⟨sp.buf ++ s⟩)
        ∧ (PhraseSpeaker.flush ⟨sp.buf ++ s⟩).1 =
            (if (trimList (sp.buf ++ s)).isEmpty then none
             else some (trimList (sp.buf ++ s)))) := by
  have hb : PhraseSpeaker.push_text sp s =
      (if ((sp.buf ++ s).contains '\n' || endsWithChar (sp.buf ++ s) '.') = true
       then PhraseSpeaker.flush ⟨sp.buf ++ s⟩ else (none, ⟨sp.buf ++ s⟩)) := rfl
  have hf : PhraseSpeaker.flush ⟨sp.buf ++ s⟩ =
      (if (trimList (sp.buf ++ s)).isEmpty = true then none
       else some (trimList (sp.buf ++ s)), ⟨[]⟩) := rfl
  constructor
  · rw [hb]
    cases htrig : ((sp.buf ++ s).contains '\n' || endsWithChar (sp.buf ++ s) '.') with
    | false => simp
    | true =>
      rw [hf]
      cases hemp : (trimList (sp.buf ++ s)).isEmpty with
      | false => simp
      | true => simp
  · intro h
    constructor
    · rw [hb, h]
      simp
    · rw [hf]

/-- C1 (witness): on the trigger-free token `Hi` nothing is emitted, the
text accumulates, and `flush` then returns it. -/
theorem C1_phrase_segmenter_witness :
    PhraseSpeaker.push_text ⟨[]⟩ ['H', 'i'] = (none, ⟨['H', 'i']⟩)
    ∧ (PhraseSpeaker.flush ⟨['H', 'i']⟩).1 = some ['H', 'i'] := by
  have h := (C1_phrase_segmenter ⟨[]⟩ ['H', 'i']).2 (by decide)
  refine ⟨by simpa using h.1, ?_⟩
  have h2 := h.2
  simpa using h2

/-- C2 (counterexample): the claim's general clause says the transcript is
cleared on interruption; an interruption observed inside the token
callback (`on_piece`, conversation.rs:149-153) clears only the phrase
buffer and leaves the transcript `USER: u` in place. -/
theorem C2_counterexample :
    (onPieceEpochCheck 0 1 ⟨false, ⟨['a']⟩, ['U']⟩).interrupted = true
    ∧ (onPieceEpochCheck 0 1 ⟨false, ⟨['a']⟩, ['U']⟩).history = ['U']
    ∧ (['U'] : List Char) ≠ [] := by
  decide

/-- C2 (amended): when the post-transcription check observes the epoch
differing from its snapshot (stale utterance), the orchestrator sends one
stop-playback signal, clears the transcript and skips the turn; when the
epoch still matches, nothing happens.  A mid-turn interruption detected
in the token callback flags the turn interrupted and clears the phrase
buffer, leaving the transcript in place. -/
theorem C2_stale_check (my cur : Nat) (hist : List Char) (st : OnPieceState) :
    (cur ≠ my →
      staleCheck my cur hist = { skip := true, stopSignals := 1, history := [] }
      ∧ onPieceEpochCheck my cur st = { st with interrupted := true, speaker := ⟨[]⟩ })
    ∧ (cur = my →
      staleCheck my cur hist = { skip := false, stopSignals := 0, history := hist }
      ∧ onPieceEpochCheck my cur st = st) := by
  constructor
  · intro h
    exact ⟨by simp [staleCheck, h], by simp [onPieceEpochCheck, h]⟩
  · intro h
    exact ⟨by simp [staleCheck, h], by simp [onPieceEpochCheck, h]⟩

/-- C2 (witness): a stale utterance (snapshot 3, current epoch 5) sends one
stop signal, clears the transcript and skips; a fresh one does not. -/
theorem C2_stale_check_witness :
    staleCheck 3 5 ['h'] = { skip := true, stopSignals := 1, history := [] }
    ∧ staleCheck 3 3 ['h'] = { skip := false, stopSignals := 0, history := ['h'] } :=
  ⟨((C2_stale_check 3 5 ['h'] ⟨false, ⟨[]⟩, []⟩).1 (by decide)).1,
   ((C2_stale_check 3 3 ['h'] ⟨false, ⟨[]⟩, []⟩).2 (by decide)).1⟩

/-- C3 (counterexample): the claim says a zero-volume callback fills the
entire output buffer with silence; with `vol = 0` the callback returns
with the buffer exactly as it was handed over — here the stale sample `2`
of magnitude > 0 survives, so the buffer is not filled with silence. -/
theorem C3_counterexample :
    (outputCallbackF32 0 false 5 100
      { queue := [1], playbackActive := true, playing := true,
        emptyCallbacks := 0, gateUntilMs := 0 } [(2 : ℚ)]).out = [(2 : ℚ)]
    ∧ (2 : ℚ) ≠ 0 := by
  constructor
  · simp [outputCallbackF32]
  · norm_num

/-- C3 (amended): whenever the snapshotted volume is 0, the f32 device
callback clears the sample queue, marks playback inactive (both the
shared flag and the UI flag), extends `gate_until` to `now + hangover`,
and returns without writing the output buffer; in particular the
callback itself writes no sample (of any magnitude) into the buffer while
the volume is 0. -/
theorem C3_volume_zero (vol : ℚ) (paused : Bool) (now hang : Nat)
    (st : OutCbState) (out : List ℚ) (h : vol = 0) :
    outputCallbackF32 vol paused now hang st out =
      { st :=
          { st with
            queue := []
            playbackActive := false
            playing := false
            gateUntilMs := now + hang },
        out := out } := by
  subst h
  simp [outputCallbackF32]

/-- C3 (witness): a concrete zero-volume callback with a queued sample and
stale buffer contents. -/
theorem C3_volume_zero_witness :
    outputCallbackF32 0 true 7 100
      { queue := [1, 2], playbackActive := true, playing := true,
        emptyCallbacks := 4, gateUntilMs := 3 } [(5 : ℚ)] =
      { st := { queue := [], playbackActive := false, playing := false,
                emptyCallbacks := 4, gateUntilMs := 107 },
        out := [(5 : ℚ)] } := by
  have h := C3_volume_zero 0 true 7 100
    { queue := [1, 2], playbackActive := true, playing := true,
      emptyCallbacks := 4, gateUntilMs := 3 } [(5 : ℚ)] rfl
  simpa using h

/-- C4 (counterexample): the claim says the pushed samples (after channel
conversion and resampling) never make the queue exceed
`QUEUE_CAP_FRAMES · channels`.  With a 2-channel device, a queue one
sample below the cap and a one-sample mono chunk at the device rate, the
backpressure wait (which checks the chunk's raw length) is satisfied,
yet mono→stereo duplication pushes two samples and the queue ends one
sample above the cap. -/
theorem C4_counterexample :
    (List.replicate (maxSamples 2 - 1) (0 : ℚ)).length
        + (AudioChunk.mk [(0 : ℚ)] 1 48000).data.length ≤ maxSamples 2
    ∧ maxSamples 2 <
        (rxAudioPush (List.replicate (maxSamples 2 - 1) (0 : ℚ))
          (AudioChunk.mk [(0 : ℚ)] 1 48000) 2 48000).length := by
  have h1 : processChunk (AudioChunk.mk [(0 : ℚ)] 1 48000) 2 48000 = [0, 0] := by
    simp [processChunk, convert_channels, convertFrames, convertFrame]
  have hcap : 1 ≤ maxSamples 2 := by norm_num [maxSamples, QUEUE_CAP_FRAMES]
  constructor
  · rw [List.length_replicate]
    simp only [List.length_cons, List.length_nil]
    omega
  · rw [rxAudioPush, h1, List.length_append, List.length_replicate]
    simp only [List.length_cons, List.length_nil]
    omega

/-- C4 (amended): the producer's backpressure wait blocks until
`queue.len + chunk.data.len ≤ QUEUE_CAP_FRAMES · channels`, checked
against the chunk's raw sample count; consequently the bound holds for
every chunk already at the device channel count and sample rate (pushed
as-is), while a chunk needing channel conversion or resampling may push
more samples than were checked and exceed the cap. -/
theorem C4_queue_bound (q : List ℚ) (c : AudioChunk) (outCh outRate : Nat)
    (hch : c.channels = outCh) (hsr : c.sampleRate = outRate)
    (hroom : q.length + c.data.length ≤ maxSamples outCh) :
    (rxAudioPush q c outCh outRate).length ≤ maxSamples outCh := by
  have hproc : processChunk c outCh outRate = c.data := by
    simp [processChunk, hch, hsr]
  rw [rxAudioPush, hproc, List.length_append]
  exact hroom

/-- C4 (witness): a stereo chunk at the device rate within the cap keeps
the queue within the cap. -/
theorem C4_queue_bound_witness :
    (rxAudioPush [(1 : ℚ), 2] (AudioChunk.mk [(3 : ℚ), 4] 2 48000) 2 48000).length
      ≤ maxSamples 2 := by
  apply C4_queue_bound [(1 : ℚ), 2] (AudioChunk.mk [(3 : ℚ), 4] 2 48000) 2 48000 rfl rfl
  norm_num [maxSamples, QUEUE_CAP_FRAMES]

/-- C5 (counterexample): the claim says the stripper is a no-op on text
inside triple-backtick fences.  On `a.```b.c```d` the code instead omits
the fenced text entirely: the output is `ad`, not the claimed `ab.cd`. -/
theorem C5_counterexample :
    (strip_special_chars false
      (['a', '.'] ++ fence ++ ['b', '.', 'c'] ++ fence ++ ['d'])).1 = ['a', 'd']
    ∧ (['a', 'd'] : List Char) ≠ ['a'] ++ ['b', '.', 'c'] ++ ['d'] := by
  decide

/-- C5 (amended): outside fenced sections `strip_special_chars` removes
the characters `. ~ * & - , ; : ( ) [ ] { } " '`; the text inside a
fenced section is omitted from the output entirely (not passed through),
and the code-fence state persists across successive phrases: a phrase
containing a single fence returns with the flag set, and a phrase
processed with the flag set contributes nothing until the next fence. -/
theorem C5_strip_special_chars (a b c : List Char)
    (ha : tick ∉ a) (hb : tick ∉ b) (hc : tick ∉ c) :
    strip_special_chars false (a ++ fence ++ b ++ fence ++ c)
        = (a.filter keepChar ++ c.filter keepChar, false)
    ∧ strip_special_chars false (a ++ fence ++ b) = (a.filter keepChar, true)
    ∧ strip_special_chars true a = ([], true) := by
  refine ⟨?_, ?_, ?_⟩
  · have e1 : a ++ fence ++ b ++ fence ++ c = a ++ (fence ++ (b ++ (fence ++ c))) := by
      simp [List.append_assoc]
    have hsplit : splitFence (a ++ fence ++ b ++ fence ++ c) = [a, b, c] := by
      rw [e1, splitFence_append_fence a _ ha, splitFence_append_fence b _ hb,
        splitFence_no_tick c hc]
    rw [strip_special_chars, hsplit]
    simp [stripParts]
  · have e2 : a ++ fence ++ b = a ++ (fence ++ b) := by
      simp [List.append_assoc]
    have hsplit : splitFence (a ++ fence ++ b) = [a, b] := by
      rw [e2, splitFence_append_fence a _ ha, splitFence_no_tick b hb]
    rw [strip_special_chars, hsplit]
    simp [stripParts]
  · rw [strip_special_chars, splitFence_no_tick a ha]
    simp [stripParts]

/-- C5 (witness): concrete phrases around a fence: punctuation is removed
outside, the fenced text is omitted, and the fence state carries across
phrases. -/
theorem C5_strip_special_chars_witness :
    strip_special_chars false
        (['a', '.'] ++ fence ++ ['b'] ++ fence ++ ['d', ',']) = (['a', 'd'], false)
    ∧ strip_special_chars false (['x', ';'] ++ fence ++ ['y']) = (['x'], true)
    ∧ strip_special_chars true ['z', '.'] = ([], true) := by
  have h := C5_strip_special_chars ['a', '.'] ['b'] ['d', ','] (by decide) (by decide)
    (by decide)
  have h2 := C5_strip_special_chars ['x', ';'] ['y'] [] (by decide) (by decide) (by decide)
  have h3 := C5_strip_special_chars ['z', '.'] [] [] (by decide) (by decide) (by decide)
  refine ⟨?_, ?_, ?_⟩
  · have := h.1
    simpa using this
  · have := h2.2.1
    simpa using this
  · have := h3.2.2
    simpa using this

/-- C6: every utterance committed by the capture segmenter satisfies
`duration_ms ≥ min_utterance_ms` (duration computed as
`samples·1000/(sample_rate·channels)` with truncating division); an
utterance whose duration is exactly `min_utterance_ms` is kept and one
that is one sample shorter is dropped. -/
theorem C6_min_utterance :
    (∀ (p : CapParams) (st : CaptureState) (data : List ℚ) (now : Nat)
        (audio : List ℚ),
        (captureStep p st data now).emitted = some audio →
        p.minUttMs ≤ durMsOf audio.length p.sampleRate p.channels)
    ∧ (∀ len sr ch m : Nat, 1 ≤ sr * ch → len * 1000 = sr * ch * m →
        (1 ≤ len → utteranceEmitted len sr ch m = true)
        ∧ (1 ≤ m → utteranceEmitted (len - 1) sr ch m = false)) := by
  constructor
  · intro p st data now audio h
    simp only [captureStep] at h
    split at h
    · split at h <;> simp_all
    · split at h
      · split at h
        · split at h
          · rename_i hguard
            simp only [Option.some.injEq] at h
            subst h
            simp only [utteranceEmitted] at hguard
            split at hguard
            · simp_all
            · exact of_decide_eq_true hguard
          · simp_all
        · simp_all
      · simp_all
  · intro len sr ch m h1 h2
    have hpos : 0 < sr * ch := h1
    have hmax : max (sr * ch) 1 = sr * ch := Nat.max_eq_left h1
    constructor
    · intro hlen
      have hne : len ≠ 0 := by omega
      simp only [utteranceEmitted, durMsOf, hmax, hne, if_false]
      rw [h2, Nat.mul_div_cancel_left m hpos]
      simp
    · intro hm
      by_cases h0 : len - 1 = 0
      · simp [utteranceEmitted, h0]
      · have hsub : (len - 1) * 1000 = sr * ch * m - 1000 := by
          rw [Nat.sub_mul, h2, one_mul]
        have hdur : durMsOf (len - 1) sr ch < m := by
          simp only [durMsOf, hmax, hsub]
          have hmpos : 0 < sr * ch * m := Nat.mul_pos hpos hm
          rw [Nat.div_lt_iff_lt_mul hpos, Nat.mul_comm m (sr * ch)]
          exact Nat.sub_lt hmpos (by norm_num)
        simp only [utteranceEmitted, h0, if_false]
        exact decide_eq_false (Nat.not_le.mpr hdur)

/-- C6 (witness): at 16 kHz mono with a 300 ms minimum, a 4800-sample
utterance (exactly 300 ms) is kept and a 4799-sample one is dropped. -/
theorem C6_min_utterance_witness :
    utteranceEmitted 4800 16000 1 300 = true
    ∧ utteranceEmitted 4799 16000 1 300 = false := by
  have h := (C6_min_utterance.2 4800 16000 1 300 (by norm_num) (by norm_num))
  exact ⟨h.1 (by norm_num), by simpa using h.2 (by norm_num)⟩

/-- C7: the `stop_sent` latch is stored `true` and then immediately reset
to `false` inside the same barge-in block (record.rs:212 and record.rs:221),
so it never survives the callback.  Concretely: a voiced callback during
active playback sends a stop signal and leaves `stopSent = false`; when
the playback control loop re-asserts `playback_active` (new TTS chunk,
playback.rs:355) while the same voice span is still running, the next
voiced callback sends a second stop signal and increments the interrupt
epoch a second time — two stops in one rising edge. -/
theorem C7_single_stop_violation :
    let p : CapParams := ⟨1, 850, 300, 100, 16000, 1⟩
    let st0 : CaptureState := ⟨true, false, [], 1, true, 0, 1, 0⟩
    let r1 := captureStep p st0 [(2 : ℚ)] 10
    let r2 := captureStep p (playbackActivate r1.st) [(2 : ℚ)] 20
    r1.stopSignals = 1 ∧ r1.st.stopSent = false ∧ r1.st.userSpeaking = true
    ∧ r2.stopSignals = 1 ∧ r2.st.userSpeaking = true ∧ r2.st.epoch = 2 := by
  refine ⟨?_, ?_, ?_, ?_, ?_, ?_⟩ <;>
    simp [captureStep, peak_abs, playbackActivate]

/-- C8: the interrupt epoch is monotonically non-decreasing over every
trace of capture callbacks, Esc key presses and playback re-activations;
the capture side increments it exactly when voice is detected while
playback is active (and the latch is clear), and the keyboard side
exactly on a second Esc within 1000 ms. -/
theorem C8_epoch_monotone :
    (∀ (p : CapParams) (st : SysState) (e : SysEvent),
        st.cap.epoch ≤ (sysStep p st e).cap.epoch)
    ∧ (∀ (p : CapParams) (st : SysState) (evs : List SysEvent),
        st.cap.epoch ≤ (evs.foldl (sysStep p) st).cap.epoch)
    ∧ (∀ (p : CapParams) (st : CaptureState) (data : List ℚ) (now : Nat),
        (captureStep p st data now).st.epoch =
          if p.vadThresh ≤ peak_abs data ∧ st.playbackActive = true
              ∧ st.stopSent = false
          then st.epoch + 1 else st.epoch)
    ∧ (∀ (prev now ep : Nat),
        (escStep (some prev) now ep).2 = (if now - prev ≤ 1000 then ep + 1 else ep)
        ∧ (escStep none now ep).2 = ep) := by
  have hchar : ∀ (p : CapParams) (st : CaptureState) (data : List ℚ) (now : Nat),
      (captureStep p st data now).st.epoch =
        if p.vadThresh ≤ peak_abs data ∧ st.playbackActive = true
            ∧ st.stopSent = false
        then st.epoch + 1 else st.epoch := by
    intro p st data now
    by_cases hv : p.vadThresh ≤ peak_abs data
    · by_cases hg : st.playbackActive = true ∧ st.stopSent = false
      · simp [captureStep, hv, hg.1, hg.2]
      · rw [if_neg (by tauto)]
        have hg2 : ¬(st.playbackActive = true ∧ st.stopSent = false) := hg
        simp [captureStep, hv, hg2]
    · rw [if_neg (by tauto)]
      simp only [captureStep, if_neg hv]
      split_ifs <;> rfl
  have hesc : ∀ (prev now ep : Nat),
      (escStep (some prev) now ep).2 = (if now - prev ≤ 1000 then ep + 1 else ep)
      ∧ (escStep none now ep).2 = ep := by
    intro prev now ep
    constructor
    · simp only [escStep]
      split_ifs <;> rfl
    · rfl
  have hstep : ∀ (p : CapParams) (st : SysState) (e : SysEvent),
      st.cap.epoch ≤ (sysStep p st e).cap.epoch := by
    intro p st e
    cases e with
    | mic data now =>
      simp only [sysStep]
      rw [hchar p st.cap data now]
      split_ifs <;> omega
    | escKey now =>
      simp only [sysStep]
      cases h : st.lastEsc with
      | none => simp [escStep]
      | some prev =>
        simp only [escStep]
        split_ifs <;> simp
    | playNewAudio => simp [sysStep, playbackActivate]
  refine ⟨hstep, ?_, hchar, hesc⟩
  intro p st evs
  induction evs generalizing st with
  | nil => exact Nat.le_refl _
  | cons e evs ih =>
    exact Nat.le_trans (hstep p st e) (ih (sysStep p st e))

/-- C9: the playback control loop first converts channels — mono→N by
duplicating each sample into every output channel, N→mono by the mean of
each complete frame — and only then resamples when the chunk's rate
differs from the device rate (no resampling when the rates match); the
converted data is frame-aligned to the device channel count. -/
theorem C9_chunk_format :
    (∀ (xs : List ℚ) (n : Nat),
        convertFrames 1 n xs = xs.flatMap (fun v => List.replicate n v))
    ∧ (∀ (ic : Nat) (frame rest : List ℚ), 1 ≤ ic → frame.length = ic →
        convertFrames ic 1 (frame ++ rest)
          = frame.sum / (ic : ℚ) :: convertFrames ic 1 rest)
    ∧ (∀ (xs : List ℚ) (ic oc : Nat), ic ≠ oc →
        oc ∣ (convert_channels xs ic oc).length)
    ∧ (∀ (c : AudioChunk) (outCh r : Nat), c.sampleRate = r →
        processChunk c outCh r =
          (if c.channels ≠ outCh then convert_channels c.data c.channels outCh
           else c.data)) := by
  refine ⟨fun xs n => convertFrames_one n xs,
          fun ic frame rest hic hlen => convertFrames_mean ic hic frame rest hlen,
          ?_, ?_⟩
  · intro xs ic oc h
    simp only [convert_channels, if_neg h]
    exact convertFrames_length_dvd ic oc xs
  · intro c outCh r h
    simp [processChunk, h]

/-- C9 (witness): a stereo chunk averaged to mono frame by frame, and a
mono chunk duplicated to stereo keeping the length a multiple of 2. -/
theorem C9_chunk_format_witness :
    convert_channels [(1 : ℚ), 3, 5, 7] 2 1 = [2, 6]
    ∧ 2 ∣ (convert_channels [(1 : ℚ), 3, 5] 1 2).length := by
  constructor
  · have h := C9_chunk_format.2.1 2 [(1 : ℚ), 3] [5, 7] (by norm_num) (by simp)
    have h2 := C9_chunk_format.2.1 2 [(5 : ℚ), 7] [] (by norm_num) (by simp)
    have h0 : convertFrames 2 1 ([] : List ℚ) = [] := by
      rw [convertFrames]
      simp
    simp only [List.cons_append, List.nil_append, List.append_nil] at h h2
    simp only [convert_channels, if_neg (by norm_num : ¬(2 = 1))]
    rw [h, h2, h0]
    norm_num
  · exact C9_chunk_format.2.2.1 [(1 : ℚ), 3, 5] 1 2 (by norm_num)

/-- C10: calling the OpenTTS speak path with empty text returns
`Completed` immediately: no HTTP request is issued and no chunk is sent
to the playback sink, whatever the URL parameters and whatever the
streaming body would do. -/
theorem C10_empty_text (base lang voice : String) (rate : Nat)
    (enc : String → String) (streamRun : String → SpeakEffects) :
    speak_via_opentts_stream "" base lang voice rate enc streamRun =
      { httpRequests := 0, sentChunks := [], outcome := SpeakOutcome.Completed } :=
  rfl

end AiMate
